import Mathlib

/-
  Verification development for the `graphi` hapi GraphQL plugin.

  The embedding below models the plugin's own code (src/lib/index.js and
  src/lib/utils.js).  JavaScript strings are modelled as `List Char`
  (named `Str`), JavaScript objects that are used as string-keyed maps are
  modelled as association lists in insertion order (assignment to an
  existing key keeps its position; a new key is appended, matching JS
  property-order semantics), and opaque JavaScript function values are
  modelled by numeric identifiers.

  External collaborators (lodash.merge, graphql-js parse/validate/execute,
  graphql-tools mergeSchemas, the hapi inject machinery) are modelled
  explicitly; each such model carries a doc comment saying what it models
  and on what evidence (library contract or this repository's test suite).
-/

namespace Graphi

/-- JavaScript strings, modelled structurally. -/
abbrev Str := List Char

/-- Association-list lookup on string-keyed JS objects (`obj[k]`). -/
def aget {β : Type} (k : Str) : List (Str × β) → Option β
  | [] => none
  | (k', v) :: rest => if k' = k then some v else aget k rest

/-- Association-list update with a combining function: `obj[k] = combine(old, v)`
when `k` is already present (keeping its position), else append `(k, v)`.
With `combine := fun _ v => v` this is plain JS property assignment. -/
def assocUpd {β : Type} (combine : β → β → β) (m : List (Str × β)) (k : Str) (v : β) :
    List (Str × β) :=
  match m with
  | [] => [(k, v)]
  | (k', v') :: rest =>
    if k' = k then (k', combine v' v) :: rest else (k', v') :: assocUpd combine rest k v

/-- Plain JS property assignment `obj[k] = v`. -/
def assocSet {β : Type} (m : List (Str × β)) (k : Str) (v : β) : List (Str × β) :=
  assocUpd (fun _ v => v) m k v

/-- Fold a second object's entries into a first one, one assignment per entry. -/
def assocFold {β : Type} (combine : β → β → β) (dst src : List (Str × β)) :
    List (Str × β) :=
  src.foldl (fun acc kv => assocUpd combine acc kv.1 kv.2) dst

theorem aget_assocUpd_self {β : Type} (c : β → β → β) (m : List (Str × β)) (k : Str) (v : β) :
    aget k (assocUpd c m k v) =
      some (match aget k m with
            | some v' => c v' v
            | none => v) := by
  induction m with
  | nil => simp [assocUpd, aget]
  | cons p rest ih =>
    obtain ⟨k', v'⟩ := p
    by_cases h : k' = k
    · subst h
      simp [assocUpd, aget]
    · simp [assocUpd, aget, h, ih]

theorem aget_assocUpd_ne {β : Type} (c : β → β → β) (m : List (Str × β)) {k k' : Str} (v : β)
    (h : k' ≠ k) : aget k' (assocUpd c m k v) = aget k' m := by
  induction m with
  | nil => simp [assocUpd, aget, Ne.symm h]
  | cons p rest ih =>
    obtain ⟨k0, v0⟩ := p
    by_cases h0 : k0 = k
    · subst h0
      simp [assocUpd, aget, Ne.symm h]
    · simp [assocUpd, aget, h0, ih]

/-- A key absent from an association list's key set has no lookup result. -/
theorem aget_eq_none_of_not_mem {β : Type} {m : List (Str × β)} {k : Str}
    (h : k ∉ m.map Prod.fst) : aget k m = none := by
  induction m with
  | nil => rfl
  | cons p rest ih =>
    obtain ⟨k0, v0⟩ := p
    simp only [List.map_cons, List.mem_cons] at h
    push_neg at h
    simp [aget, Ne.symm h.1, ih h.2]

/-- Lookup after folding a duplicate-free object `src` into `dst`:
keys of `src` come back combined with any previous binding; other keys
are untouched. -/
theorem aget_assocFold {β : Type} (c : β → β → β) (src : List (Str × β))
    (hnd : (src.map Prod.fst).Nodup) :
    ∀ (dst : List (Str × β)) (k : Str),
      aget k (assocFold c dst src) =
        match aget k src with
        | some v => some (match aget k dst with
                          | some v' => c v' v
                          | none => v)
        | none => aget k dst := by
  induction src with
  | nil => intro dst k; simp [assocFold, aget]
  | cons p rest ih =>
    intro dst k
    obtain ⟨k0, v0⟩ := p
    simp only [List.map_cons, List.nodup_cons] at hnd
    by_cases h : k0 = k
    · subst h
      have hrest : aget k0 rest = none := aget_eq_none_of_not_mem hnd.1
      simp only [assocFold, List.foldl_cons]
      have := ih hnd.2 (assocUpd c dst k0 v0) k0
      simp only [assocFold] at this
      rw [this, hrest, aget_assocUpd_self]
      simp [aget]
    · simp only [assocFold, List.foldl_cons]
      have := ih hnd.2 (assocUpd c dst k0 v0) k
      simp only [assocFold] at this
      rw [this, aget_assocUpd_ne c dst v0 (Ne.symm h)]
      simp [aget, h]

/-! ## Schema registry (src/lib/index.js, `internals.registerSchema`;
     src/lib/utils.js, `mergeSchemas`) -/

/-- A value stored in the server's resolver map (`server.plugins.graphi.resolvers`):
either a bare top-level resolver function, a resolver synthesized for a route by
the route bridge (a closure over the route's realm prefix and method,
src/lib/index.js lines 88-110), or a nested per-type sub-map of field resolvers. -/
inductive RVal where
  | fn (id : Nat)
  | bridge (prefix0 : Str) (method : String)
  | sub (fields : List (Str × Nat))
deriving DecidableEq, Repr

/-- The server's resolver map. -/
abbrev RMap := List (Str × RVal)

/-- Models lodash.merge's treatment of two values stored under the same key:
two plain-object sub-maps merge key-by-key with the source winning on a
shared key; any other source value (functions are not mergeable) overwrites
the destination value. -/
def mergeRVal : RVal → RVal → RVal
  | .sub d, .sub s => .sub (assocFold (fun _ v => v) d s)
  | _, s => s

/-- Models `Merge(dst, src)` (lodash.merge, called in src/lib/index.js line 83)
on resolver-map-shaped data: every key of `src` is folded into `dst` with
`mergeRVal` combining values stored under a shared key. -/
def lodashMerge (dst src : RMap) : RMap :=
  assocFold mergeRVal dst src

/-- A built executable schema, abstracted to what the registry claims need:
the map from type name to that type's field names. -/
abbrev Schema := List (Str × List Str)

/-- Models `GraphqlTools.mergeSchemas({ schemas: [a, b] })` (external
graphql-tools library, called from src/lib/utils.js line 64) as pinned by
this repository's test suite (test "will overwrite an existing schema"):
a type name present in both schemas is resolved by taking the second
schema's definition wholesale (so a field present only in the first
schema's version of a shared type, e.g. `Query`, is no longer queryable),
while types present in only one schema are kept. -/
def toolsMergeSchemas (a b : Schema) : Schema :=
  assocFold (fun _ v => v) a b

/-- src/lib/utils.js lines 59-65: the first registration installs the new
schema unchanged; later registrations delegate to graphql-tools. -/
def mergeSchemas (schema : Option Schema) (extraSchema : Schema) : Schema :=
  match schema with
  | none => extraSchema
  | some s => toolsMergeSchemas s extraSchema

/-- A field is queryable when its type exists on the active schema and
declares it. -/
def hasField (s : Schema) (t f : Str) : Bool :=
  match aget t s with
  | some fs => fs.contains f
  | none => false

/-- The per-server mutable registry state (`server.plugins.graphi`). -/
structure GraphiState where
  resolvers : RMap
  schema : Option Schema
deriving DecidableEq, Repr

/-- src/lib/index.js lines 72-85 (`internals.registerSchema`), for an
already-built schema (a string document is first built by
`makeExecutableSchema`; the nes subscription wiring is a side effect that
does not touch the registry state): the resolver map is lodash-merged and
the schema is merged via `mergeSchemas`. -/
def registerSchema (st : GraphiState) (schema : Schema) (resolvers : RMap) : GraphiState :=
  { resolvers := lodashMerge st.resolvers resolvers
    schema := some (mergeSchemas st.schema schema) }

/-- The registry state of a freshly registered plugin
(src/lib/index.js line 30: `server.expose('resolvers', {})`). -/
def initialState : GraphiState := { resolvers := [], schema := none }

/-! ## Route-to-resolver bridge (src/lib/index.js, `internals.onPreStart`) -/

/-- An entry of the router's final table, restricted to the attributes the
pre-start scan reads: `route.method`, `route.path`, `route.settings.tags`
(`|| []` already applied) and `route.realm.modifiers.route.prefix`.  An
absent (undefined, hence falsy) prefix is modelled by the empty string. -/
structure Route where
  method : String
  path : Str
  tags : List String
  prefix0 : Str
deriving DecidableEq, Repr

/-- src/lib/index.js line 114: a route participates unless
`route.method !== 'graphql' && tags.indexOf('graphql') === -1`. -/
def participates (r : Route) : Bool :=
  r.method == "graphql" || r.tags.contains "graphql"

/-- src/lib/index.js lines 118-119: the synthesized resolver's field name,
`prefix ? route.path.substr(prefix.length + 1) : route.path.substr(1)`. -/
def routeFieldName (r : Route) : Str :=
  if r.prefix0.isEmpty then r.path.drop 1 else r.path.drop (r.prefix0.length + 1)

/-- src/lib/index.js lines 112-121: the pre-start scan over the router's
final table, assigning a synthesized bridge resolver (a closure over the
route's prefix and method) into the server's resolver map under the
derived field name. -/
def onPreStart (table : List Route) (resolvers : RMap) : RMap :=
  table.foldl
    (fun acc r =>
      if participates r then assocSet acc (routeFieldName r) (RVal.bridge r.prefix0 r.method)
      else acc)
    resolvers

/-! ## Synthesized bridge resolver behaviour (src/lib/index.js lines 88-110) -/

/-- What the bridge resolver reads off the completed internal
`request.server.inject` call: the status code, the result body (an opaque
value used as the field value), and the result's `message` and `error`
properties (used when building the Boom error). -/
structure InjectResponse where
  statusCode : Nat
  resultBody : Nat
  resultMessage : String
  resultError : String
deriving DecidableEq, Repr

/-- The value a synthesized bridge resolver produces for its field: either
the internal call's result body, or a Boom error object carrying the
message, the original status code and the classification payload
`data: { error, url }`. -/
inductive FieldOutcome where
  | value (body : Nat)
  | boomErr (message : String) (statusCode : Nat) (dataError : String) (dataUrl : Str)
deriving DecidableEq, Repr

/-- src/lib/index.js lines 88-110: the synthesized resolver.  `inject`
models the internal router call `request.server.inject({ method, url,
payload, headers })`, keyed by method, url and payload. -/
def bridgeResolver (prefix0 : Str) (method : String)
    (inject : String → Str → Nat → InjectResponse)
    (payload : Nat) (astFieldName : Str) : FieldOutcome :=
  let url := prefix0 ++ ('/' :: astFieldName)
  let res := inject method url payload
  if res.statusCode < 400 then
    .value res.resultBody
  else
    .boomErr res.resultMessage res.statusCode res.resultError url

/-! ## Executable schema builder, resolver wiring
     (src/lib/utils.js, `makeExecutableSchema`, lines 13-57) -/

/-- The kind of a named type returned by `astSchema.getType`, as
discriminated by the builder's `instanceof` checks. -/
inductive GTypeKind where
  | scalar
  | enum
  | object
  | interface
  | otherKind
deriving DecidableEq, Repr

/-- A named type on the built schema: its kind, its field names (for
object/interface types, `type.getFields()`), and its value names (for enum
types, `type.getValue`). -/
structure GType where
  kind : GTypeKind
  fields : List Str
  enumValues : List Str
deriving DecidableEq, Repr

/-- A JavaScript value sitting in a resolver sub-map: a function or not. -/
inductive JsVal where
  | func (id : Nat)
  | nonFunc (id : Nat)
deriving DecidableEq, Repr

/-- A top-level resolver-map entry: either the bare-function shorthand for
a root field (a function has no own enumerable keys, so the inner loop
does not run), or a per-type sub-map. -/
inductive TopVal where
  | bare (f : JsVal)
  | sub (m : List (Str × JsVal))
deriving DecidableEq, Repr

/-- `Object.keys(typeResolver)` with the value attached. -/
def fieldKeys : TopVal → List (Str × JsVal)
  | .bare _ => []
  | .sub m => m

/-- One attachment the builder performs on the schema. -/
structure Wiring where
  typeName : Str
  fieldName : Str
  resolver : Nat
deriving DecidableEq, Repr

/-- The body of the builder's inner loop for one `(fieldName, value)` entry
under an existing type `t` named `tname` (src/lib/utils.js lines 27-53):
assert the value is a function; attach to a scalar unconditionally; attach
to an enum value if it exists, else throw the assertion message; skip
types that are neither object nor interface; attach to an object/interface
field, which throws a TypeError when the field is absent
(`fields[fieldName]` is undefined). -/
def wireField (tname : Str) (t : GType) (fname : Str) (v : JsVal) :
    Except String (Option Wiring) :=
  match v with
  | .nonFunc _ =>
    .error (String.mk tname ++ "." ++ String.mk fname ++ " resolver must be a function")
  | .func id =>
    match t.kind with
    | .scalar => .ok (some ⟨tname, fname, id⟩)
    | .enum =>
      if t.enumValues.contains fname then .ok (some ⟨tname, fname, id⟩)
      else .error (String.mk tname ++ "." ++ String.mk fname ++
        " enum definition missing from schema")
    | .object =>
      if t.fields.contains fname then .ok (some ⟨tname, fname, id⟩)
      else .error "TypeError: Cannot set property resolve of undefined"
    | .interface =>
      if t.fields.contains fname then .ok (some ⟨tname, fname, id⟩)
      else .error "TypeError: Cannot set property resolve of undefined"
    | .otherKind => .ok none

/-- The inner loop of the builder over one type's resolver entries
(src/lib/utils.js lines 27-53), accumulating the attachments performed or
propagating the first thrown error. -/
def wireTypeFields (tname : Str) (t : GType) :
    List (Str × JsVal) → List Wiring → Except String (List Wiring)
  | [], acc => .ok acc
  | fv :: rest, acc =>
    match wireField tname t fv.1 fv.2 with
    | .error e => .error e
    | .ok none => wireTypeFields tname t rest acc
    | .ok (some w) => wireTypeFields tname t rest (acc ++ [w])

/-- src/lib/utils.js lines 18-54: the resolver-wiring loop of
`makeExecutableSchema`, returning the list of attachments performed, or
the first error thrown.  A top-level key whose name is not a type of the
schema (`astSchema.getType(resolverName)` is undefined, line 20) is
skipped with `continue`. -/
def wireResolvers (types : List (Str × GType)) :
    List (Str × TopVal) → List Wiring → Except String (List Wiring)
  | [], acc => .ok acc
  | rv :: rest, acc =>
    match aget rv.1 types with
    | none => wireResolvers types rest acc
    | some t =>
      match wireTypeFields rv.1 t (fieldKeys rv.2) acc with
      | .error e => .error e
      | .ok acc2 => wireResolvers types rest acc2

/-- The whole resolver-wiring pass of `makeExecutableSchema`. -/
def makeExecutableWiring (types : List (Str × GType))
    (resolvers : List (Str × TopVal)) : Except String (List Wiring) :=
  wireResolvers types resolvers []

/-! ## Scalar directive decoration
     (src/lib/utils.js, `internals.decorateDirectives` lines 105-138 and
     `internals.createScalar` lines 140-158) -/

/-- A literal value node in the parsed schema AST, as discriminated by
`arg.value.kind`: an IntValue node carries its digits as a string, a
BooleanValue node carries an actual boolean, any other kind is kept with
its raw representative value. -/
inductive AstValue where
  | intVal (digits : Str)
  | boolVal (b : Bool)
  | otherVal (kind : Str) (raw : Str)
deriving DecidableEq, Repr

/-- Decimal digits to a natural number. -/
def digitsToNat (ds : Str) : Nat :=
  ds.foldl (fun n c => 10 * n + (c.toNat - 48)) 0

/-- Models JavaScript `parseInt(value, 10)` on the digit strings that
graphql-js stores in IntValue nodes (an optional minus sign followed by
decimal digits). -/
def parseIntJs (digits : Str) : Int :=
  match digits with
  | '-' :: ds => -(digitsToNat ds : Int)
  | ds => (digitsToNat ds : Int)

/-- A directive argument value after `createScalar`'s conversion. -/
inductive ConvVal where
  | int (n : Int)
  | bool (b : Bool)
  | raw (kind : Str) (v : Str)
deriving DecidableEq, Repr

/-- src/lib/utils.js lines 148-153: `value = arg.value.value`, overridden
to `parseInt(value, 10)` for an IntValue kind and to `Boolean(value)`
(the identity on an actual boolean) for a BooleanValue kind. -/
def convertValue : AstValue → ConvVal
  | .intVal s => .int (parseIntJs s)
  | .boolVal b => .bool b
  | .otherVal k v => .raw k v

/-- An argument node of a directive: `arg.name.value` and `arg.value`. -/
structure DirArgNode where
  name : Str
  value : AstValue
deriving DecidableEq, Repr

/-- A directive node: `directive.name.value` and `directive.arguments`. -/
structure DirectiveNode where
  name : Str
  args : List DirArgNode
deriving DecidableEq, Repr

/-- The scalar type object built by a registered factory: the factory name
and the formatted argument object it received. -/
structure ScalarType where
  factory : Str
  args : List (Str × ConvVal)
deriving DecidableEq, Repr

/-- src/lib/utils.js lines 146-155: the `formattedArgs` object, built by
assigning each converted argument value under its name. -/
def formatArgs (args : List DirArgNode) : List (Str × ConvVal) :=
  args.foldl (fun acc a => assocSet acc a.name (convertValue a.value)) []

/-- src/lib/utils.js lines 140-158 (`internals.createScalar`): nothing is
returned when the directive name is not a registered scalar factory
(`Scalars[name]` is not a function); otherwise the factory is called on
the formatted arguments.  `factories` models the key set of the external
`scalars` package's export object. -/
def createScalar (factories : List Str) (name : Str) (args : List DirArgNode) :
    Option ScalarType :=
  if factories.contains name then some ⟨name, formatArgs args⟩ else none

/-- The type slot of a field or argument on the built schema after
decoration: either the SDL-declared type, untouched, or a replacement
scalar. -/
inductive DecoratedType where
  | original
  | scalar (s : ScalarType)
deriving DecidableEq, Repr

/-- The inner directive loops of `decorateDirectives` (src/lib/utils.js
lines 112-120 for a field, lines 123-134 for an argument): each directive
whose name matches a registered scalar factory overwrites the decorated
type slot with the created scalar; a non-matching directive leaves the
slot as it was (`continue`), and no error is ever raised. -/
def applyDirectives (factories : List Str) (ds : List DirectiveNode) : DecoratedType :=
  ds.foldl
    (fun t d =>
      match createScalar factories d.name d.args with
      | some sc => .scalar sc
      | none => t)
    .original

/-- An argument definition node of a field in the schema document. -/
structure InputValueNode where
  name : Str
  directives : List DirectiveNode
deriving DecidableEq, Repr

/-- A field definition node of a type in the schema document. -/
structure FieldDefNode where
  name : Str
  directives : List DirectiveNode
  args : List InputValueNode
deriving DecidableEq, Repr

/-- A definition node of the parsed schema document: its `kind` tag, name
and fields. -/
structure TypeDefNode where
  kind : Str
  name : Str
  fields : List FieldDefNode
deriving DecidableEq, Repr

/-- src/lib/utils.js lines 105-138 (`internals.decorateDirectives`),
expressed as the decorated type slots it leaves on the built schema:
only `ObjectTypeDefinition` definitions are visited, and each visited
field and field argument gets `applyDirectives` of its directive list. -/
def decorateDirectives (factories : List Str) (defs : List TypeDefNode) :
    List (Str × List (Str × (DecoratedType × List (Str × DecoratedType)))) :=
  (defs.filter (fun d => d.kind = "ObjectTypeDefinition".data)).map
    (fun d =>
      (d.name, d.fields.map
        (fun f =>
          (f.name,
           (applyDirectives factories f.directives,
            f.args.map (fun a => (a.name, applyDirectives factories a.directives)))))))

/-! ## Subscription publisher (src/lib/utils.js, `publish`, lines 85-103) -/

/-- src/lib/utils.js lines 85-103: `publish(name, obj)` looks up the
subscription field named `name` on the active schema (`subFields` maps a
subscription field name to its declared argument names, in declaration
order); a missing field makes the JS throw while reading `field.args`
(modelled by `none`); with no declared arguments the payload goes to
`/name`; otherwise one path segment per declared argument is appended,
holding `obj[arg.name]` (an absent payload key interpolates as
"undefined").  Returns the channel path and published payload. -/
def publish (subFields : List (Str × List Str)) (name : Str)
    (obj : List (Str × Str)) : Option (Str × List (Str × Str)) :=
  match aget name subFields with
  | none => none
  | some args =>
    if args.isEmpty then some ('/' :: name, obj)
    else
      some (args.foldl
        (fun acc a => acc ++ '/' :: ((aget a obj).getD "undefined".data))
        ('/' :: name), obj)

/-! ## Request dispatcher (src/lib/index.js, `internals.graphqlHandler`
     lines 124-216 and `internals.tryParseVariables` lines 232-242) -/

/-- A decoded JavaScript value as the dispatcher observes it: an opaque
identity together with the value's truthiness and the truthiness of its
`isBoom` property (false when the property is absent) — exactly the two
facts the handler's duck-typed guard `variables && variables.isBoom`
(src/lib/index.js line 145) reads off it. -/
structure JsonVal where
  id : Nat
  truthy : Bool
  isBoom : Bool
deriving DecidableEq, Repr

/-- The `variables` value found on the extracted source object: absent
(undefined), a string, or any non-string value (e.g. an object decoded
from a JSON body), the latter carrying its truthiness and the truthiness
of its `isBoom` property.  Every non-string input, truthy or not, is
returned by `tryParseVariables` unchanged. -/
inductive VarInput where
  | absent
  | jstr (s : String)
  | nonString (v : Nat) (truthy : Bool) (isBoom : Bool)
deriving DecidableEq, Repr

/-- The outcome of `internals.tryParseVariables`: the input returned
unchanged, a decoded JSON value, or a Boom client error. -/
inductive VarOut where
  | raw (v : VarInput)
  | decoded (j : JsonVal)
  | boomVar (message : String)
deriving DecidableEq, Repr

/-- src/lib/index.js lines 232-242: a falsy or non-string input is
returned as-is (`!input || typeof input !== 'string'`; the empty string is
falsy); a non-empty string is JSON-decoded, a decode failure becoming
`Boom.badRequest('Unable to JSON.parse variables')`.  `jsonParse` models
the external `JSON.parse`. -/
def tryParseVariables (jsonParse : String → Except String JsonVal) : VarInput → VarOut
  | .absent => .raw .absent
  | .nonString v t b => .raw (.nonString v t b)
  | .jstr s =>
    if s = "" then .raw (.jstr "")
    else
      match jsonParse s with
      | .ok j => .decoded j
      | .error _ => .boomVar "Unable to JSON.parse variables"

/-- The JavaScript truthiness of `variables && variables.isBoom`
(src/lib/index.js line 145) on the value `tryParseVariables` returned: the
real Boom of a decode failure is truthy with a true `isBoom`; an absent
input is undefined (falsy) and the only string ever returned is the empty
string (falsy); any other returned or decoded value fires the guard
exactly when it is truthy and carries a truthy `isBoom` property. -/
def varsLooksBoom : VarOut → Bool
  | .boomVar _ => true
  | .raw .absent => false
  | .raw (.jstr _) => false
  | .raw (.nonString _ t b) => t && b
  | .decoded j => j.truthy && j.isBoom

/-- The object returned by `Graphql.execute`: `data` and/or `errors`. -/
structure ExecResult where
  data : Option Nat
  errors : Option (List Nat)
deriving DecidableEq, Repr

/-- The external GraphQL engine and JSON codec, as the dispatcher calls
them against the active schema and resolver map: `jsonParse` models
`JSON.parse`; `gqlParse` models `Graphql.parse` on a present query string
(an AST is an opaque id, a thrown syntax error is its `toString()`
message); `validate` models `Graphql.validate(schema, queryAST)` returning
the error messages; `execute` models `Graphql.execute(schema, queryAST,
resolvers, request, variables, operationName, fieldResolver)`. -/
structure Engine where
  jsonParse : String → Except String JsonVal
  gqlParse : String → Except String Nat
  validate : Nat → List String
  execute : Nat → VarOut → Option String → ExecResult

/-- `Graphql.parse(source.query)` including the absent-query case: the
external parser throws on a non-string source
(src/lib/index.js line 155 passes `source.query` straight through). -/
def parseQuery (eng : Engine) : Option String → Except String Nat
  | none => .error "Syntax Error: Must provide Source. Received: undefined."
  | some q => eng.gqlParse q

/-- Models JavaScript `String.prototype.toUpperCase` on method names. -/
def jsToUpper (s : String) : String := String.mk (s.data.map Char.toUpper)

/-- The three GraphQL request parameters found on the extracted source. -/
structure GqlSource where
  query : Option String
  vars : VarInput
  operationName : Option String
deriving DecidableEq, Repr

/-- The empty object a missing payload is replaced with
(src/lib/index.js line 141, `request.payload || {}`). -/
def emptySource : GqlSource := { query := none, vars := .absent, operationName := none }

/-- An incoming HTTP request, restricted to what the handler reads. -/
structure GqlRequest where
  method : String
  query : GqlSource
  payload : Option GqlSource
deriving DecidableEq, Repr

/-- src/lib/index.js line 141: GET requests read the source from the URL
query parameters, all other methods from the (possibly absent) body. -/
def sourceOf (req : GqlRequest) : GqlSource :=
  if jsToUpper req.method == "GET" then req.query else req.payload.getD emptySource

/-- src/lib/index.js lines 174-178: when the execution result carries
errors and a `formatError` function is configured, every error is
remapped through it. -/
def formatResult (formatError : Option (Nat → Nat)) (r : ExecResult) : ExecResult :=
  match r.errors, formatError with
  | some errs, some f => { r with errors := some (errs.map f) }
  | _, _ => r

/-- What the handler hands back to hapi: `h.continue` for OPTIONS, a Boom
client error, the variables value itself (returned at src/lib/index.js
line 150 when the `isBoom` guard fires on a value that is not a real Boom
— hapi serves such a plain value as a 200 JSON body), or the plain
execution result object. -/
inductive HandlerResult where
  | passThrough
  | boom (statusCode : Nat) (message : String)
  | echoVars (v : VarOut)
  | ok (result : ExecResult)
deriving DecidableEq, Repr

/-- The HTTP status hapi gives each handler outcome: a plain returned
object (the execution result, or an echoed non-Boom variables value) is a
200 response; a Boom error carries its own status. -/
def httpStatus : HandlerResult → Nat
  | .passThrough => 200
  | .boom s _ => s
  | .echoVars _ => 200
  | .ok _ => 200

/-- src/lib/index.js lines 124-216 (`internals.graphqlHandler`), with the
tracing span logging and the console tracing report omitted (neither
affects the returned value): OPTIONS passes through; the source is
extracted by method; `if (variables && variables.isBoom) return variables`
(line 145) returns whatever `tryParseVariables` produced — the real Boom
of a decode failure becomes a 400 with its message, while any other
variables value carrying a truthy `isBoom` property is returned as-is (a
200 body); a parse failure returns `Boom.badRequest(ex.toString())`;
validation errors are joined with ", " into one `Boom.badRequest`;
otherwise the execution result, with errors remapped through
`formatError` when configured, is returned as a plain object. -/
def graphqlHandler (eng : Engine) (formatError : Option (Nat → Nat))
    (req : GqlRequest) : HandlerResult :=
  if jsToUpper req.method == "OPTIONS" then .passThrough
  else
    let source := sourceOf req
    let variables0 := tryParseVariables eng.jsonParse source.vars
    if varsLooksBoom variables0 then
      match variables0 with
      | .boomVar m => .boom 400 m
      | v => .echoVars v
    else
      match parseQuery eng source.query with
      | .error msg => .boom 400 msg
      | .ok queryAST =>
        let errors := eng.validate queryAST
        if errors.isEmpty then
          .ok (formatResult formatError (eng.execute queryAST variables0 source.operationName))
        else
          .boom 400 (String.intercalate ", " errors)

/-! ## Per-field resolver wrapper (src/lib/index.js, `internals.fieldResolver`,
     lines 244-268) -/

/-- The field execution metadata the wrapper reads off `info`. -/
structure FieldInfo where
  fieldName : Str
  path : List Str
  parentType : Str
  returnType : Str
deriving DecidableEq, Repr

/-- One tracing record pushed onto `tracingResult.tracingResolvers`. -/
structure TraceRec where
  fieldName : Str
  path : List Str
  parentType : Str
  returnType : Str
  startTime : Nat
  duration : Int
deriving DecidableEq, Repr

/-- src/lib/index.js lines 244-268: the wrapper passed to
`Graphql.execute` as its field resolver.  With tracing enabled it pushes a
tracing record (start time taken before resolving, duration filled in
after); with tracing disabled it touches nothing.  Either way it returns
exactly `Graphql.defaultFieldResolver(value, args, ctx, info)` — modelled
by the function argument `defaultFieldResolver` since the engine is
external.  The pair returned is (resolved value, tracing records after
the call). -/
def fieldResolver (defaultFieldResolver : Nat → Nat → Nat → FieldInfo → Nat)
    (tracing : Bool) (startTime endTime : Nat) (tracingResolvers : List TraceRec)
    (value args ctx : Nat) (info : FieldInfo) : Nat × List TraceRec :=
  let result := defaultFieldResolver value args ctx info
  if tracing then
    (result, tracingResolvers ++
      [{ fieldName := info.fieldName, path := info.path, parentType := info.parentType,
         returnType := info.returnType, startTime := startTime,
         duration := (endTime : Int) - (startTime : Int) }])
  else
    (result, tracingResolvers)

/-! ## Concrete instances used by counterexamples and witnesses -/

/-- First schema of the repository test "will overwrite an existing schema". -/
def exSchemaA : Schema :=
  [("Person".data, ["id".data, "firstname".data, "lastname".data]),
   ("Query".data, ["person".data])]

/-- Second schema of the same test: it redeclares `Query` with a different
field set. -/
def exSchemaB : Schema :=
  [("Person".data, ["id".data, "firstname".data, "lastname".data]),
   ("Mutation".data, ["createPerson".data]),
   ("Query".data, ["people".data])]

def exResA : RMap :=
  [("person".data, .fn 1),
   ("Person".data, .sub [("firstname".data, 11), ("lastname".data, 12)])]

def exResB : RMap :=
  [("createPerson".data, .fn 3),
   ("Person".data, .sub [("lastname".data, 13)])]

/-! ## C1 -/

/-- C1, counterexample: `person` is declared by schema A (on its `Query`
type), so the claim demands it stay queryable after schema B is also
registered; but the active schema after both registrations no longer
declares it, because B's own `Query` definition replaced A's — exactly the
behaviour the repository test "will overwrite an existing schema" asserts
(the follow-up `person` query gets HTTP 400). -/
theorem registerSchema_roundtrip_counterexample :
    hasField exSchemaA "Query".data "person".data = true ∧
    ((registerSchema (registerSchema initialState exSchemaA exResA) exSchemaB exResB).schema.map
        (fun s => hasField s "Query".data "person".data)) = some false := by
  decide

/-- C1, amended: after registering schema A with resolver map rA and then
schema B with rB on a fresh server (duplicate-free key sets):
the first registration installs A as the active schema unchanged and its
resolver map as the active resolver map; the active resolver map after the
second registration is the key-by-key deep merge of rA and rB — a type
sub-map key present in both maps resolves to rB's function while keys only
in rA's sub-map are kept, and a top-level key absent from rB keeps rA's
value; the active schema after the second registration keeps every type
declared by exactly one schema and resolves a type name declared by both
by taking B's definition wholesale, so a field of a shared type name
declared only by A is no longer queryable. -/
theorem registerSchema_merge (sA sB : Schema) (rA rB : RMap)
    (hA : (rA.map Prod.fst).Nodup) (hB : (rB.map Prod.fst).Nodup)
    (hsB : (sB.map Prod.fst).Nodup) :
    (registerSchema initialState sA rA).schema = some sA ∧
    (∀ k, aget k (registerSchema initialState sA rA).resolvers = aget k rA) ∧
    (∀ t fsA fsB,
      aget t rA = some (.sub fsA) → aget t rB = some (.sub fsB) →
      aget t (registerSchema (registerSchema initialState sA rA) sB rB).resolvers =
        some (.sub (assocFold (fun _ v => v) fsA fsB)) ∧
      (∀ f b, (fsB.map Prod.fst).Nodup → aget f fsB = some b →
        aget f (assocFold (fun _ v => v) fsA fsB) = some b) ∧
      (∀ f a, (fsB.map Prod.fst).Nodup → aget f fsB = none → aget f fsA = some a →
        aget f (assocFold (fun _ v => v) fsA fsB) = some a)) ∧
    (∀ t, aget t rB = none →
      aget t (registerSchema (registerSchema initialState sA rA) sB rB).resolvers = aget t rA) ∧
    (registerSchema (registerSchema initialState sA rA) sB rB).schema =
      some (toolsMergeSchemas sA sB) ∧
    (∀ ty fs, aget ty sB = some fs → aget ty (toolsMergeSchemas sA sB) = some fs) ∧
    (∀ ty, aget ty sB = none → aget ty (toolsMergeSchemas sA sB) = aget ty sA) := by
  have hr1 : ∀ k, aget k (registerSchema initialState sA rA).resolvers = aget k rA := by
    intro k
    show aget k (lodashMerge [] rA) = aget k rA
    rw [lodashMerge, aget_assocFold mergeRVal rA hA]
    cases h : aget k rA with
    | none => simp [aget]
    | some v => simp [aget]
  refine ⟨rfl, hr1, ?_, ?_, rfl, ?_, ?_⟩
  · intro t fsA fsB htA htB
    have hmain :
        aget t (registerSchema (registerSchema initialState sA rA) sB rB).resolvers =
          some (.sub (assocFold (fun _ v => v) fsA fsB)) := by
      show aget t (lodashMerge (registerSchema initialState sA rA).resolvers rB) = _
      rw [lodashMerge, aget_assocFold mergeRVal rB hB, htB, hr1 t, htA]
      rfl
    refine ⟨hmain, ?_, ?_⟩
    · intro f b hfs hfB
      rw [aget_assocFold (fun _ v => v) fsB hfs, hfB]
      cases aget f fsA <;> rfl
    · intro f a hfs hfB hfA
      rw [aget_assocFold (fun _ v => v) fsB hfs, hfB, hfA]
  · intro t htB
    show aget t (lodashMerge (registerSchema initialState sA rA).resolvers rB) = _
    rw [lodashMerge, aget_assocFold mergeRVal rB hB, htB, hr1 t]
  · intro ty fs htB
    rw [toolsMergeSchemas, aget_assocFold (fun _ v => v) sB hsB, htB]
    cases aget ty sA <;> rfl
  · intro ty htB
    rw [toolsMergeSchemas, aget_assocFold (fun _ v => v) sB hsB, htB]

/-- C1, witness: the amended theorem applied to the concrete schemas and
resolver maps above. -/
theorem registerSchema_merge_witness :
    (registerSchema initialState exSchemaA exResA).schema = some exSchemaA ∧
    aget "lastname".data
      (assocFold (fun _ v => v)
        [("firstname".data, 11), ("lastname".data, 12)] [("lastname".data, 13)]) = some 13 := by
  have h := registerSchema_merge exSchemaA exSchemaB exResA exResB
    (by decide) (by decide) (by decide)
  refine ⟨h.1, ?_⟩
  have h3 := h.2.2.1 "Person".data [("firstname".data, 11), ("lastname".data, 12)]
    [("lastname".data, 13)] (by decide) (by decide)
  exact h3.2.1 "lastname".data 13 (by decide) (by decide)

/-! ## C2 -/

/-- Once a key holds a synthesized bridge resolver, the rest of the
pre-start scan can only rewrite it to another bridge resolver. -/
theorem onPreStart_preserves_bridge (table : List Route) (acc : RMap) (k : Str)
    (hb : ∃ p m, aget k acc = some (RVal.bridge p m)) :
    ∃ p m, aget k (onPreStart table acc) = some (RVal.bridge p m) := by
  induction table generalizing acc with
  | nil => exact hb
  | cons r rest ih =>
    simp only [onPreStart, List.foldl_cons]
    by_cases hpart : participates r
    · simp only [hpart, if_true]
      apply ih
      by_cases hk : routeFieldName r = k
      · subst hk
        rw [assocSet, aget_assocUpd_self]
        exact ⟨r.prefix0, r.method, by cases aget (routeFieldName r) acc <;> rfl⟩
      · rw [assocSet, aget_assocUpd_ne _ _ _ (Ne.symm hk)]
        exact hb
    · simp only [hpart, if_false]
      exact ih acc hb

/-- Every participating route leaves a bridge resolver under its derived
field name, whatever resolver map the scan starts from. -/
theorem onPreStart_mem_bridge (table : List Route) (r : Route)
    (hmem : r ∈ table) (hp : participates r = true) :
    ∀ acc : RMap, ∃ p m,
      aget (routeFieldName r) (onPreStart table acc) = some (RVal.bridge p m) := by
  induction table with
  | nil => cases hmem
  | cons r0 rest ih =>
    intro acc
    rcases List.mem_cons.mp hmem with heq | htl
    · subst heq
      simp only [onPreStart, List.foldl_cons, hp, if_true]
      apply onPreStart_preserves_bridge
      rw [assocSet, aget_assocUpd_self]
      exact ⟨r.prefix0, r.method, by cases aget (routeFieldName r) acc <;> rfl⟩
    · simp only [onPreStart, List.foldl_cons]
      by_cases hp0 : participates r0
      · simp only [hp0, if_true]
        exact ih htl _
      · simp only [hp0, if_false]
        exact ih htl acc

/-- C2: for every route of the router's final table whose method is the
reserved token `graphql` or whose tags contain `graphql`, the pre-start
scan registers a synthesized resolver under the field name derived from
the route's path: with a non-empty realm prefix the prefix and the
following '/' separator are stripped (a prefix `/test` with path
`/test/createPerson` yields `createPerson`), and with no prefix only the
leading '/' is stripped (path `/person` yields `person`). -/
theorem onPreStart_field_names (table : List Route) (resolvers : RMap) (r : Route)
    (hmem : r ∈ table) (hp : participates r = true) :
    (∀ rest, r.prefix0 ≠ [] → r.path = r.prefix0 ++ '/' :: rest → routeFieldName r = rest) ∧
    (∀ rest, r.prefix0 = [] → r.path = '/' :: rest → routeFieldName r = rest) ∧
    (∃ p m, aget (routeFieldName r) (onPreStart table resolvers) =
      some (RVal.bridge p m)) := by
  refine ⟨?_, ?_, onPreStart_mem_bridge table r hmem hp resolvers⟩
  · intro rest hne hpath
    have hie : r.prefix0.isEmpty = false := by
      cases h : r.prefix0 with
      | nil => exact absurd h hne
      | cons c cs => rfl
    rw [routeFieldName, hie]
    simp only [Bool.false_eq_true, if_false, hpath]
    have : r.prefix0 ++ '/' :: rest = (r.prefix0 ++ ['/']) ++ rest := by
      simp
    rw [this]
    have hlen : (r.prefix0 ++ ['/']).length = r.prefix0.length + 1 := by
      simp
    rw [← hlen, List.drop_left]
  · intro rest he hpath
    rw [routeFieldName, he]
    simp [hpath]

/-- C2, witness: the two routes of the claim, scanned together. -/
theorem onPreStart_field_names_witness :
    routeFieldName ⟨"graphql", "/test/createPerson".data, [], "/test".data⟩ =
      "createPerson".data ∧
    routeFieldName ⟨"get", "/person".data, ["graphql"], []⟩ = "person".data := by
  have h1 := onPreStart_field_names
    [⟨"graphql", "/test/createPerson".data, [], "/test".data⟩] []
    ⟨"graphql", "/test/createPerson".data, [], "/test".data⟩
    (by simp) (by decide)
  have h2 := onPreStart_field_names
    [⟨"get", "/person".data, ["graphql"], []⟩] []
    ⟨"get", "/person".data, ["graphql"], []⟩
    (by simp) (by decide)
  exact ⟨h1.1 "createPerson".data (by decide) (by decide),
         h2.2.1 "person".data rfl (by decide)⟩

/-! ## C3 -/

/-- A one-type schema: a `Query` object type with one field. -/
def exTypes : List (Str × GType) :=
  [("Query".data, { kind := .object, fields := ["person".data], enumValues := [] })]

/-- A resolver map whose only top-level key names a type absent from the
schema. -/
def exBadResolvers : List (Str × TopVal) :=
  [("Missing".data, .sub [("f".data, .func 7)])]

/-- C3, counterexample: a resolver map whose top-level key names a type
that does not exist in the schema builds without any error — the builder
skips the key with `continue` (src/lib/utils.js lines 19-22) and performs
no wiring, while the claim demands the build call fail immediately with a
configuration error. -/
theorem wireResolvers_unknown_type_counterexample :
    makeExecutableWiring exTypes exBadResolvers = .ok [] := by
  rfl

/-- C3, amended: a top-level resolver-map key naming a type that does not
exist in the schema is silently skipped at build time — it contributes no
wiring and raises no error, leaving the build result exactly what it
would be without the entry (bare top-level entries instead act as
root-value resolvers at request time and see no build-time validation at
all).  Build-time errors arise only from entries under an existing type. -/
theorem wireResolvers_skips_unknown (types : List (Str × GType))
    (pre post : List (Str × TopVal)) (name : Str) (tv : TopVal) (acc : List Wiring)
    (h : aget name types = none) :
    wireResolvers types (pre ++ (name, tv) :: post) acc =
      wireResolvers types (pre ++ post) acc := by
  induction pre generalizing acc with
  | nil =>
    simp only [List.nil_append, wireResolvers, h]
  | cons rv rest ih =>
    simp only [List.cons_append, wireResolvers]
    cases hT : aget rv.1 types with
    | none =>
      exact ih acc
    | some t =>
      cases hW : wireTypeFields rv.1 t (fieldKeys rv.2) acc with
      | error e => simp only [hW]
      | ok acc2 => simp only [hW]; exact ih acc2

/-- C3, witness: the amended theorem at the concrete schema and entry of
the counterexample (prepended to an empty rest). -/
theorem wireResolvers_skips_unknown_witness :
    wireResolvers exTypes ([] ++ ("Missing".data, TopVal.sub [("f".data, .func 7)]) :: []) [] =
      wireResolvers exTypes ([] ++ []) [] := by
  exact wireResolvers_skips_unknown exTypes [] []
    "Missing".data (TopVal.sub [("f".data, .func 7)]) [] (by decide)

/-! ## Request dispatcher helper lemmas (shared by C4, C5, C6) -/

/-- Unfolding of `graphqlHandler` past the OPTIONS gate. -/
theorem handler_cases (eng : Engine) (fe : Option (Nat → Nat)) (req : GqlRequest)
    (hm : (jsToUpper req.method == "OPTIONS") = false) :
    graphqlHandler eng fe req =
      if varsLooksBoom (tryParseVariables eng.jsonParse (sourceOf req).vars) then
        match tryParseVariables eng.jsonParse (sourceOf req).vars with
        | .boomVar m => .boom 400 m
        | v => .echoVars v
      else
        match parseQuery eng (sourceOf req).query with
        | .error msg => .boom 400 msg
        | .ok queryAST =>
          if (eng.validate queryAST).isEmpty then
            .ok (formatResult fe
              (eng.execute queryAST (tryParseVariables eng.jsonParse (sourceOf req).vars)
                (sourceOf req).operationName))
          else
            .boom 400 (String.intercalate ", " (eng.validate queryAST)) := by
  unfold graphqlHandler
  rw [if_neg (by simp [hm])]

/-- A Boom produced by `tryParseVariables` fires the guard and, being a
real Boom, is returned as a 400 with its message. -/
theorem handler_var_boom (eng : Engine) (fe : Option (Nat → Nat)) (req : GqlRequest)
    (m : String) (hm : (jsToUpper req.method == "OPTIONS") = false)
    (hv : tryParseVariables eng.jsonParse (sourceOf req).vars = .boomVar m) :
    graphqlHandler eng fe req = .boom 400 m := by
  rw [handler_cases eng fe req hm, hv]
  rfl

/-- A non-Boom variables value with a truthy `isBoom` property fires the
guard and is returned as the response unchanged. -/
theorem handler_echo (eng : Engine) (fe : Option (Nat → Nat)) (req : GqlRequest)
    (v : VarOut) (hm : (jsToUpper req.method == "OPTIONS") = false)
    (hv : tryParseVariables eng.jsonParse (sourceOf req).vars = v)
    (hg : varsLooksBoom v = true)
    (hnb : ∀ m, v ≠ VarOut.boomVar m) :
    graphqlHandler eng fe req = .echoVars v := by
  rw [handler_cases eng fe req hm, hv, if_pos hg]
  cases v with
  | boomVar m => exact absurd rfl (hnb m)
  | raw vi => rfl
  | decoded j => rfl

/-- A parse failure is returned as a 400 Boom with the parser's message
(the variables guard not having fired). -/
theorem handler_parse_error (eng : Engine) (fe : Option (Nat → Nat)) (req : GqlRequest)
    (v : VarOut) (msg : String) (hm : (jsToUpper req.method == "OPTIONS") = false)
    (hv : tryParseVariables eng.jsonParse (sourceOf req).vars = v)
    (hg : varsLooksBoom v = false)
    (hp : parseQuery eng (sourceOf req).query = .error msg) :
    graphqlHandler eng fe req = .boom 400 msg := by
  rw [handler_cases eng fe req hm, hv, if_neg (by simp [hg])]
  simp only [hp]

/-- Validation errors are joined with ", " into one 400 Boom
(the variables guard not having fired). -/
theorem handler_validate_error (eng : Engine) (fe : Option (Nat → Nat)) (req : GqlRequest)
    (v : VarOut) (ast : Nat) (hm : (jsToUpper req.method == "OPTIONS") = false)
    (hv : tryParseVariables eng.jsonParse (sourceOf req).vars = v)
    (hg : varsLooksBoom v = false)
    (hp : parseQuery eng (sourceOf req).query = .ok ast)
    (hne : (eng.validate ast).isEmpty = false) :
    graphqlHandler eng fe req = .boom 400 (String.intercalate ", " (eng.validate ast)) := by
  rw [handler_cases eng fe req hm, hv, if_neg (by simp [hg])]
  simp only [hp, hne, Bool.false_eq_true, if_false]

/-- A clean run (guard silent, parse and validation passing) returns the
formatted execution result as a plain value. -/
theorem handler_ok (eng : Engine) (fe : Option (Nat → Nat)) (req : GqlRequest)
    (v : VarOut) (ast : Nat) (hm : (jsToUpper req.method == "OPTIONS") = false)
    (hv : tryParseVariables eng.jsonParse (sourceOf req).vars = v)
    (hg : varsLooksBoom v = false)
    (hp : parseQuery eng (sourceOf req).query = .ok ast)
    (hval : (eng.validate ast).isEmpty = true) :
    graphqlHandler eng fe req =
      .ok (formatResult fe (eng.execute ast v (sourceOf req).operationName)) := by
  rw [handler_cases eng fe req hm, hv, if_neg (by simp [hg])]
  simp only [hp, hval, if_true]

/-- `parseQuery` only reads the engine's `gqlParse`. -/
theorem parseQuery_congr (eng eng' : Engine) (o : Option String)
    (h : eng'.gqlParse = eng.gqlParse) : parseQuery eng' o = parseQuery eng o := by
  cases o with
  | none => rfl
  | some q => simp [parseQuery, h]

/-! ## Concrete engine and requests for the dispatcher witnesses -/

/-- A concrete external engine: one parseable query id 1 that validates
cleanly, one parseable query id 2 with a validation diagnostic, everything
else a syntax error; one decodable variables string; execution always
produces data 42 and error 5. -/
def engEx : Engine :=
  { jsonParse := fun s =>
      if s = "good-vars" then .ok { id := 10, truthy := true, isBoom := false }
      else .error "Unexpected token i in JSON at position 0"
    gqlParse := fun q =>
      if q = "good-query" then .ok 1
      else if q = "bad-directive" then .ok 2
      else .error "Syntax Error: Unexpected Name"
    validate := fun ast => if ast = 1 then [] else ["Unknown directive custom"]
    execute := fun _ _ _ => { data := some 42, errors := some [5] } }

def reqOk : GqlRequest :=
  { method := "POST", query := emptySource
    payload := some { query := some "good-query", vars := .absent, operationName := none } }

def reqBadQuery : GqlRequest :=
  { method := "POST", query := emptySource
    payload := some { query := some "nonsense", vars := .absent, operationName := none } }

def reqBadDirective : GqlRequest :=
  { method := "POST", query := emptySource
    payload := some { query := some "bad-directive", vars := .absent, operationName := none } }

def reqEmptyBody : GqlRequest :=
  { method := "POST", query := emptySource, payload := none }

def reqBadVars : GqlRequest :=
  { method := "GET"
    query := { query := some "good-query", vars := .jstr "invalid", operationName := none }
    payload := none }

def reqNonStringVars : GqlRequest :=
  { method := "POST", query := emptySource
    payload := some { query := some "good-query", vars := .nonString 3 true false,
                      operationName := none } }

/-- A POST body whose parseable, valid query is accompanied by a plain
variables object that is truthy and carries a truthy `isBoom` property. -/
def reqSpoofVars : GqlRequest :=
  { method := "POST", query := emptySource
    payload := some { query := some "good-query", vars := .nonString 9 true true,
                      operationName := none } }

/-- The same spoofed variables object next to an unparseable query. -/
def reqSpoofBadQuery : GqlRequest :=
  { method := "POST", query := emptySource
    payload := some { query := some "nonsense", vars := .nonString 9 true true,
                      operationName := none } }

/-- A second spoofed-variables request, with a parseable, valid query. -/
def reqSpoofVars2 : GqlRequest :=
  { method := "POST", query := emptySource
    payload := some { query := some "good-query", vars := .nonString 8 true true,
                      operationName := none } }

/-! ## C4 -/

/-- C4, counterexample: a request whose query parses (to AST 1) and
passes static validation, but whose variables value is a plain object
with a truthy `isBoom` property: the guard at src/lib/index.js line 145
fires and the dispatcher returns the variables object itself as the
response (a 200 echo), not the execution result object the claim demands
(the engine would have produced data 42 with error 5). -/
theorem graphqlHandler_execute_200_counterexample :
    parseQuery engEx (sourceOf reqSpoofVars).query = .ok 1 ∧
    engEx.validate 1 = [] ∧
    graphqlHandler engEx none reqSpoofVars =
      .echoVars (.raw (.nonString 9 true true)) ∧
    engEx.execute 1 (.raw (.nonString 9 true true)) none =
      { data := some 42, errors := some [5] } := by
  refine ⟨rfl, rfl, ?_, rfl⟩
  rfl

/-- C4, amended: for every dispatched request whose extracted variables
value does not fire the handler's `variables && variables.isBoom` guard
and whose query parses and passes static validation, the dispatcher
returns the execution result object (data and/or errors) as a plain value,
which hapi serves with HTTP status 200 — whatever errors execution
produced stay inside that 200 body — and when a `formatError` function is
configured every error of the execution result's errors array is remapped
through it before inclusion in the response.  (A request whose variables
value fires the guard instead gets that value back as the response and
never reaches execution.) -/
theorem graphqlHandler_execute_200 (eng : Engine) (fe : Option (Nat → Nat))
    (req : GqlRequest) (v : VarOut) (ast : Nat)
    (hm : (jsToUpper req.method == "OPTIONS") = false)
    (hv : tryParseVariables eng.jsonParse (sourceOf req).vars = v)
    (hg : varsLooksBoom v = false)
    (hp : parseQuery eng (sourceOf req).query = .ok ast)
    (hval : eng.validate ast = []) :
    graphqlHandler eng fe req =
      .ok (formatResult fe (eng.execute ast v (sourceOf req).operationName)) ∧
    httpStatus (graphqlHandler eng fe req) = 200 ∧
    (∀ f errs, fe = some f →
      (eng.execute ast v (sourceOf req).operationName).errors = some errs →
      (formatResult fe (eng.execute ast v (sourceOf req).operationName)).errors =
        some (errs.map f)) := by
  have hmain := handler_ok eng fe req v ast hm hv hg hp (by simp [hval])
  refine ⟨hmain, by rw [hmain]; rfl, ?_⟩
  intro f errs hfe herrs
  rw [hfe]
  unfold formatResult
  rw [herrs]

/-- C4, witness: a clean run against the concrete engine, with a
configured formatter that shifts every error id by 100. -/
theorem graphqlHandler_execute_200_witness :
    graphqlHandler engEx (some (fun e => e + 100)) reqOk =
      .ok { data := some 42, errors := some [105] } ∧
    httpStatus (graphqlHandler engEx (some (fun e => e + 100)) reqOk) = 200 := by
  have h := graphqlHandler_execute_200 engEx (some (fun e => e + 100)) reqOk
    (.raw .absent) 1 (by decide) rfl (by decide) rfl rfl
  exact ⟨h.1, h.2.1⟩

/-! ## C5 -/

/-- C5, counterexample: a request whose query text fails to parse but
whose plain variables object carries a truthy `isBoom` property: the
dispatcher returns the variables object as a 200 response — the parser's
message never reaches the client and no 400 is produced, against the
claim's demand that a parse failure short-circuit with a 400-class
response. -/
theorem graphqlHandler_400_short_circuit_counterexample :
    parseQuery engEx (sourceOf reqSpoofBadQuery).query =
      .error "Syntax Error: Unexpected Name" ∧
    graphqlHandler engEx none reqSpoofBadQuery =
      .echoVars (.raw (.nonString 9 true true)) ∧
    httpStatus (graphqlHandler engEx none reqSpoofBadQuery) = 200 := by
  refine ⟨rfl, ?_, ?_⟩ <;> rfl

/-- C5, amended: for every dispatched request whose extracted variables
value does not fire the handler's `variables && variables.isBoom` guard:
a query text that fails to parse short-circuits dispatch with a 400 Boom
carrying the parser's message, independently of the engine's
validate/execute behaviour; a parsed query failing static validation gets
all validation errors joined into one 400 client error, independently of
the engine's execute behaviour; an absent body on a non-GET request (the
payload treated as an empty object) fails the parse of its absent query
and yields 400.  In all three cases execution is never reached. -/
theorem graphqlHandler_400_short_circuit (eng : Engine) (fe : Option (Nat → Nat))
    (req : GqlRequest)
    (hm : (jsToUpper req.method == "OPTIONS") = false)
    (hg : varsLooksBoom (tryParseVariables eng.jsonParse (sourceOf req).vars) = false) :
    (∀ msg, parseQuery eng (sourceOf req).query = .error msg →
      graphqlHandler eng fe req = .boom 400 msg ∧
      httpStatus (graphqlHandler eng fe req) = 400 ∧
      (∀ eng' : Engine, eng'.jsonParse = eng.jsonParse → eng'.gqlParse = eng.gqlParse →
        graphqlHandler eng' fe req = .boom 400 msg)) ∧
    (∀ ast errs, parseQuery eng (sourceOf req).query = .ok ast →
      eng.validate ast = errs → errs ≠ [] →
      graphqlHandler eng fe req = .boom 400 (String.intercalate ", " errs) ∧
      (∀ eng' : Engine, eng'.jsonParse = eng.jsonParse → eng'.gqlParse = eng.gqlParse →
        eng'.validate = eng.validate →
        graphqlHandler eng' fe req = .boom 400 (String.intercalate ", " errs))) ∧
    ((jsToUpper req.method == "GET") = false → req.payload = none →
      graphqlHandler eng fe req =
        .boom 400 "Syntax Error: Must provide Source. Received: undefined.") := by
  refine ⟨?_, ?_, ?_⟩
  · intro msg hp
    have hmain := handler_parse_error eng fe req
      (tryParseVariables eng.jsonParse (sourceOf req).vars) msg hm rfl hg hp
    refine ⟨hmain, by rw [hmain]; rfl, ?_⟩
    intro eng' h1 h2
    exact handler_parse_error eng' fe req
      (tryParseVariables eng'.jsonParse (sourceOf req).vars) msg hm rfl
      (by rw [h1]; exact hg)
      (by rw [parseQuery_congr eng eng' _ h2]; exact hp)
  · intro ast errs hp hvalid hne
    have hie : (eng.validate ast).isEmpty = false := by
      rw [hvalid]
      cases errs with
      | nil => exact absurd rfl hne
      | cons e es => rfl
    have hmain := handler_validate_error eng fe req
      (tryParseVariables eng.jsonParse (sourceOf req).vars) ast hm rfl hg hp hie
    rw [hvalid] at hmain
    refine ⟨hmain, ?_⟩
    intro eng' h1 h2 h3
    have hmain' := handler_validate_error eng' fe req
      (tryParseVariables eng'.jsonParse (sourceOf req).vars) ast hm rfl
      (by rw [h1]; exact hg)
      (by rw [parseQuery_congr eng eng' _ h2]; exact hp)
      (by rw [h3]; exact hie)
    rw [h3, hvalid] at hmain'
    exact hmain'
  · intro hget hpay
    have hsrc : sourceOf req = emptySource := by
      unfold sourceOf
      rw [if_neg (by simp [hget]), hpay]
      rfl
    exact handler_parse_error eng fe req
      (tryParseVariables eng.jsonParse (sourceOf req).vars)
      "Syntax Error: Must provide Source. Received: undefined." hm rfl hg
      (by rw [hsrc]; rfl)

/-- C5, witness: the three short-circuits at concrete requests — a syntax
error, a validation diagnostic, and an empty POST body. -/
theorem graphqlHandler_400_short_circuit_witness :
    graphqlHandler engEx none reqBadQuery = .boom 400 "Syntax Error: Unexpected Name" ∧
    graphqlHandler engEx none reqBadDirective = .boom 400 "Unknown directive custom" ∧
    graphqlHandler engEx none reqEmptyBody =
      .boom 400 "Syntax Error: Must provide Source. Received: undefined." := by
  have h1 := graphqlHandler_400_short_circuit engEx none reqBadQuery
    (by decide) (by decide)
  have h2 := graphqlHandler_400_short_circuit engEx none reqBadDirective
    (by decide) (by decide)
  have h3 := graphqlHandler_400_short_circuit engEx none reqEmptyBody
    (by decide) (by decide)
  refine ⟨(h1.1 _ rfl).1, ?_, h3.2.2 (by decide) rfl⟩
  have hb := (h2.2.1 2 ["Unknown directive custom"] rfl rfl (by decide)).1
  simpa using hb

/-! ## C6 -/

/-- C6, counterexample: the claim's pass-through clause fails on the
code — a non-string variables value that is truthy and carries a truthy
`isBoom` property is not passed through to execution: although its query
parses (to AST 1) and validates cleanly, the dispatcher returns the
variables value itself as the response and execution is never reached. -/
theorem graphqlHandler_bad_variables_counterexample :
    (sourceOf reqSpoofVars2).vars = .nonString 8 true true ∧
    parseQuery engEx (sourceOf reqSpoofVars2).query = .ok 1 ∧
    engEx.validate 1 = [] ∧
    graphqlHandler engEx none reqSpoofVars2 =
      .echoVars (.raw (.nonString 8 true true)) := by
  refine ⟨rfl, rfl, rfl, ?_⟩
  rfl

/-- C6, amended: a request whose extracted variables value is a non-empty
string that fails JSON decoding short-circuits the whole dispatch with a
400 response saying the variables could not be parsed, whatever the query
is and whatever the engine's parse/validate/execute behaviour (only the
JSON codec matters).  Variables values that are absent, or non-string
values that do not satisfy the `variables && variables.isBoom` guard, are
handed to execution unchanged with no JSON decoding; a non-string value
that is truthy and carries a truthy `isBoom` property is instead returned
as the response itself and never reaches execution. -/
theorem graphqlHandler_bad_variables (eng : Engine) (fe : Option (Nat → Nat))
    (req : GqlRequest) (s e : String)
    (hm : (jsToUpper req.method == "OPTIONS") = false)
    (hs : (sourceOf req).vars = .jstr s)
    (hne : s ≠ "")
    (hj : eng.jsonParse s = .error e) :
    (graphqlHandler eng fe req = .boom 400 "Unable to JSON.parse variables" ∧
     httpStatus (graphqlHandler eng fe req) = 400 ∧
     (∀ eng' : Engine, eng'.jsonParse = eng.jsonParse →
       graphqlHandler eng' fe req = .boom 400 "Unable to JSON.parse variables")) ∧
    (∀ (req2 : GqlRequest) (ast : Nat),
      (jsToUpper req2.method == "OPTIONS") = false →
      ((sourceOf req2).vars = .absent ∨
        (∃ w t b, (sourceOf req2).vars = .nonString w t b ∧ (t && b) = false)) →
      parseQuery eng (sourceOf req2).query = .ok ast →
      eng.validate ast = [] →
      graphqlHandler eng fe req2 =
        .ok (formatResult fe
          (eng.execute ast (.raw (sourceOf req2).vars) (sourceOf req2).operationName))) ∧
    (∀ (req3 : GqlRequest) (w : Nat),
      (jsToUpper req3.method == "OPTIONS") = false →
      (sourceOf req3).vars = .nonString w true true →
      graphqlHandler eng fe req3 = .echoVars (.raw (.nonString w true true))) := by
  have hboom : tryParseVariables eng.jsonParse (sourceOf req).vars =
      .boomVar "Unable to JSON.parse variables" := by
    rw [hs]
    simp only [tryParseVariables]
    rw [if_neg hne, hj]
  have hmain := handler_var_boom eng fe req _ hm hboom
  refine ⟨⟨hmain, by rw [hmain]; rfl, ?_⟩, ?_, ?_⟩
  · intro eng' h1
    exact handler_var_boom eng' fe req _ hm (by rw [h1]; exact hboom)
  · intro req2 ast hm2 hv2 hp2 hval2
    have hraw : tryParseVariables eng.jsonParse (sourceOf req2).vars =
        .raw (sourceOf req2).vars := by
      rcases hv2 with ha | ⟨w, t, b, hw, htb⟩
      · rw [ha]; rfl
      · rw [hw]; rfl
    have hg2 : varsLooksBoom (.raw (sourceOf req2).vars) = false := by
      rcases hv2 with ha | ⟨w, t, b, hw, htb⟩
      · rw [ha]; rfl
      · rw [hw]
        simpa [varsLooksBoom] using htb
    exact handler_ok eng fe req2 (.raw (sourceOf req2).vars) ast hm2 hraw
      hg2 hp2 (by simp [hval2])
  · intro req3 w hm3 hv3
    exact handler_echo eng fe req3 (.raw (.nonString w true true)) hm3
      (by rw [hv3]; rfl) rfl (by intro m hcon; cases hcon)

/-- C6, witness: the malformed GET `variables=invalid` request of the
claim, a non-string variables value passed through to execution
undecoded, and a spoofed `isBoom` variables value echoed back. -/
theorem graphqlHandler_bad_variables_witness :
    graphqlHandler engEx none reqBadVars = .boom 400 "Unable to JSON.parse variables" ∧
    graphqlHandler engEx none reqNonStringVars =
      .ok { data := some 42, errors := some [5] } ∧
    graphqlHandler engEx none reqSpoofVars =
      .echoVars (.raw (.nonString 9 true true)) := by
  have h := graphqlHandler_bad_variables engEx none reqBadVars "invalid"
    "Unexpected token i in JSON at position 0" (by decide) rfl (by decide) rfl
  refine ⟨h.1.1, ?_, ?_⟩
  · have h2 := h.2.1 reqNonStringVars 1 (by decide) (Or.inr ⟨3, true, false, rfl, rfl⟩)
      rfl rfl
    simpa using h2
  · exact h.2.2 reqSpoofVars 9 (by decide) rfl

/-! ## C7 -/

/-- C7: when the internal route call completes with a status code strictly
below 400 the synthesized bridge resolver returns the call's result body as
the field's value; at 400 or above it returns a field-level Boom error
carrying the call's message, the original status code, and the
error-classification payload (the call's error string and url) — a
per-field error value rather than an exception aborting the request. -/
theorem bridgeResolver_status_mapping (prefix0 : Str) (method : String)
    (inject : String → Str → Nat → InjectResponse) (payload : Nat) (fieldName0 : Str) :
    ((inject method (prefix0 ++ '/' :: fieldName0) payload).statusCode < 400 →
      bridgeResolver prefix0 method inject payload fieldName0 =
        .value (inject method (prefix0 ++ '/' :: fieldName0) payload).resultBody) ∧
    (400 ≤ (inject method (prefix0 ++ '/' :: fieldName0) payload).statusCode →
      bridgeResolver prefix0 method inject payload fieldName0 =
        .boomErr (inject method (prefix0 ++ '/' :: fieldName0) payload).resultMessage
          (inject method (prefix0 ++ '/' :: fieldName0) payload).statusCode
          (inject method (prefix0 ++ '/' :: fieldName0) payload).resultError
          (prefix0 ++ '/' :: fieldName0)) := by
  constructor
  · intro h
    unfold bridgeResolver
    rw [if_pos h]
  · intro h
    unfold bridgeResolver
    rw [if_neg (Nat.not_lt.mpr h)]

/-- A concrete internal router for the C7 witness: one existing route, a
404 for everything else. -/
def injectEx : String → Str → Nat → InjectResponse := fun _ u _ =>
  if u = "/test/createPerson".data then
    { statusCode := 200, resultBody := 77, resultMessage := "", resultError := "" }
  else
    { statusCode := 404, resultBody := 0, resultMessage := "Not Found",
      resultError := "Not Found" }

/-- C7, witness: a below-400 call yields the body as field value; a 404
call yields the Boom field error with message, status and payload. -/
theorem bridgeResolver_status_mapping_witness :
    bridgeResolver "/test".data "graphql" injectEx 5 "createPerson".data =
      .value 77 ∧
    bridgeResolver [] "get" injectEx 5 "missing".data =
      .boomErr "Not Found" 404 "Not Found" "/missing".data := by
  constructor
  · have h := (bridgeResolver_status_mapping "/test".data "graphql" injectEx 5
      "createPerson".data).1 (by decide)
    simpa using h
  · have h := (bridgeResolver_status_mapping [] "get" injectEx 5
      "missing".data).2 (by decide)
    simpa using h

/-! ## C8 -/

/-- The channel path as the specification words it, for comparison with
the source-derived `publish`: '/' followed by the field name, extended by
one '/'-separated segment per declared argument, in declaration order. -/
def specChannelPath (name : Str) (segs : List Str) : Str :=
  '/' :: name ++ (segs.map (fun v => '/' :: v)).flatten

theorem publish_foldl_eq (f : Str → Str) (args : List Str) :
    ∀ base : Str,
      args.foldl (fun acc a => acc ++ '/' :: f a) base =
        base ++ (args.map (fun a => '/' :: f a)).flatten := by
  induction args with
  | nil => intro base; simp
  | cons a rest ih =>
    intro base
    simp only [List.foldl_cons, List.map_cons, List.flatten_cons]
    rw [ih (base ++ '/' :: f a)]
    simp

/-- C8: for a declared subscription field, publishing an event with that
field's name and a payload publishes the payload to '/' + field name when
the field declares no arguments, and otherwise to the path extending it
with one segment per declared argument, in declaration order, each
holding the payload's value for that argument's name. -/
theorem publish_channel_path (subFields : List (Str × List Str)) (name : Str)
    (obj : List (Str × Str)) (args : List Str)
    (h : aget name subFields = some args) :
    publish subFields name obj =
      some (specChannelPath name
        (args.map (fun a => (aget a obj).getD "undefined".data)), obj) := by
  simp only [publish, h]
  cases args with
  | nil =>
    simp [specChannelPath]
  | cons a rest =>
    rw [if_neg (by simp)]
    rw [publish_foldl_eq (fun a => (aget a obj).getD "undefined".data) (a :: rest)
      ('/' :: name)]
    simp only [specChannelPath, List.map_map]
    rfl

/-- C8, witness: publishing `personCreated(firstname: String)` with
payload firstname john, lastname smith delivers to `/personCreated/john`,
which is a different channel from `/personCreated/foo`. -/
theorem publish_channel_path_witness :
    publish [("personCreated".data, ["firstname".data])] "personCreated".data
        [("firstname".data, "john".data), ("lastname".data, "smith".data)] =
      some ("/personCreated/john".data,
        [("firstname".data, "john".data), ("lastname".data, "smith".data)]) ∧
    "/personCreated/john".data ≠ "/personCreated/foo".data := by
  constructor
  · have h := publish_channel_path [("personCreated".data, ["firstname".data])]
      "personCreated".data
      [("firstname".data, "john".data), ("lastname".data, "smith".data)]
      ["firstname".data] (by decide)
    simpa using h
  · decide

/-! ## C9 -/

/-- A pair present in a duplicate-free association list is what lookup
finds. -/
theorem aget_of_mem_nodup {β : Type} {m : List (Str × β)} {k : Str} {v : β}
    (hnd : (m.map Prod.fst).Nodup) (hmem : (k, v) ∈ m) : aget k m = some v := by
  induction m with
  | nil => cases hmem
  | cons p rest ih =>
    obtain ⟨k0, v0⟩ := p
    simp only [List.map_cons, List.nodup_cons] at hnd
    rcases List.mem_cons.mp hmem with heq | htl
    · cases heq
      simp [aget]
    · have hk : k0 ≠ k := by
        intro hkk
        subst hkk
        exact hnd.1 (List.mem_map_of_mem Prod.fst htl)
      simp [aget, hk, ih hnd.2 htl]

/-- `formatArgs` is the assignment-fold of the converted arguments. -/
theorem formatArgs_eq_assocFold (args : List DirArgNode) :
    formatArgs args =
      assocFold (fun _ v => v) []
        (args.map (fun a => (a.name, convertValue a.value))) := by
  rw [formatArgs, assocFold, List.foldl_map]
  rfl

/-- C9: during schema build, a field or argument directive whose name does
not match a registered scalar factory leaves the declared type untouched
(and raises no error — `applyDirectives` is total), while a matching
directive replaces the decorated field's or argument's type with the
factory's scalar, whose argument object holds each directive argument
converted by AST literal kind: an integer literal becomes an integer, a
boolean literal becomes a boolean, any other literal keeps its raw value.
Only object type definitions are visited, and every visited field and
argument carries exactly this decoration on the built schema. -/
theorem decorateDirectives_policy (factories : List Str) :
    (∀ ds : List DirectiveNode,
      (∀ d ∈ ds, factories.contains d.name = false) →
      applyDirectives factories ds = .original) ∧
    (∀ (ds : List DirectiveNode) (d : DirectiveNode),
      factories.contains d.name = true →
      applyDirectives factories (ds ++ [d]) = .scalar ⟨d.name, formatArgs d.args⟩) ∧
    (∀ (args : List DirArgNode) (a : DirArgNode),
      (args.map DirArgNode.name).Nodup → a ∈ args →
      aget a.name (formatArgs args) = some (convertValue a.value)) ∧
    (∀ s, convertValue (.intVal s) = .int (parseIntJs s)) ∧
    (∀ b, convertValue (.boolVal b) = .bool b) ∧
    (∀ k v, convertValue (.otherVal k v) = .raw k v) ∧
    (∀ (defs : List TypeDefNode) (d : TypeDefNode),
      d ∈ defs → d.kind = "ObjectTypeDefinition".data →
      (d.name, d.fields.map (fun f =>
        (f.name, (applyDirectives factories f.directives,
          f.args.map (fun a => (a.name, applyDirectives factories a.directives)))))) ∈
        decorateDirectives factories defs) := by
  refine ⟨?_, ?_, ?_, fun _ => rfl, fun _ => rfl, fun _ _ => rfl, ?_⟩
  · intro ds hno
    have haux : ∀ t : DecoratedType,
        ds.foldl (fun t d =>
          match createScalar factories d.name d.args with
          | some sc => .scalar sc
          | none => t) t = t := by
      induction ds with
      | nil => intro t; rfl
      | cons d rest ih =>
        intro t
        have hd : createScalar factories d.name d.args = none := by
          rw [createScalar, if_neg]
          have := hno d (List.mem_cons_self d rest)
          simpa using this
        simp only [List.foldl_cons, hd]
        exact ih (fun d hmem => hno d (List.mem_cons_of_mem _ hmem)) t
    exact haux .original
  · intro ds d hd
    have hmm : d.name ∈ factories := by simpa using hd
    rw [applyDirectives, List.foldl_append]
    simp [createScalar, hmm]
  · intro args a hnd hmem
    rw [formatArgs_eq_assocFold]
    have hnd2 : ((args.map (fun a => (a.name, convertValue a.value))).map Prod.fst).Nodup := by
      rw [List.map_map]
      exact hnd
    rw [aget_assocFold (fun _ v => v) _ hnd2]
    have hm2 : (a.name, convertValue a.value) ∈
        args.map (fun a => (a.name, convertValue a.value)) :=
      List.mem_map_of_mem _ hmem
    rw [aget_of_mem_nodup hnd2 hm2]
    rfl
  · intro defs d hmem hkind
    unfold decorateDirectives
    apply List.mem_map_of_mem
    rw [List.mem_filter]
    exact ⟨hmem, by simp [hkind]⟩

/-- C9, witness: with the factory list containing only `Joi`, an unknown
`deprecated` directive leaves the type untouched, while a matching
`Joi(min: 1, required: true)` directive becomes a scalar with the integer
and boolean literals converted. -/
theorem decorateDirectives_policy_witness :
    applyDirectives ["Joi".data] [{ name := "deprecated".data, args := [] }] = .original ∧
    applyDirectives ["Joi".data]
        [{ name := "Joi".data,
           args := [{ name := "min".data, value := .intVal "1".data },
                    { name := "required".data, value := .boolVal true }] }] =
      .scalar { factory := "Joi".data,
                args := [("min".data, .int 1), ("required".data, .bool true)] } := by
  have h := decorateDirectives_policy ["Joi".data]
  constructor
  · exact h.1 [{ name := "deprecated".data, args := [] }] (by decide)
  · have h2 := h.2.1 []
      { name := "Joi".data,
        args := [{ name := "min".data, value := .intVal "1".data },
                 { name := "required".data, value := .boolVal true }] }
      (by decide)
    exact h2.trans (by decide)

/-! ## C10 -/

/-- C10: the dispatcher's per-field resolver wrapper returns exactly the
value produced by the engine's default field resolver on the same four
arguments, with tracing enabled or disabled — the flag only appends a
tracing record and never changes the resolved result. -/
theorem fieldResolver_default_value (d : Nat → Nat → Nat → FieldInfo → Nat)
    (startTime endTime : Nat) (st st' : List TraceRec)
    (value args0 ctx : Nat) (info : FieldInfo) :
    (fieldResolver d true startTime endTime st value args0 ctx info).1 =
      d value args0 ctx info ∧
    (fieldResolver d false startTime endTime st' value args0 ctx info).1 =
      d value args0 ctx info ∧
    (fieldResolver d true startTime endTime st value args0 ctx info).1 =
      (fieldResolver d false startTime endTime st' value args0 ctx info).1 ∧
    (fieldResolver d false startTime endTime st' value args0 ctx info).2 = st' ∧
    (fieldResolver d true startTime endTime st value args0 ctx info).2 =
      st ++ [{ fieldName := info.fieldName, path := info.path,
               parentType := info.parentType, returnType := info.returnType,
               startTime := startTime,
               duration := (endTime : Int) - (startTime : Int) }] :=
  ⟨rfl, rfl, rfl, rfl, rfl⟩

end Graphi
